import Mathlib

/-!
Verification development for `Apple2Dreem.py`: a converter from Apple Health
sleep-stage JSON exports to per-night Dreem CSV summaries.

Shallow embedding conventions:
* Timestamps are modeled as `Int` — whole seconds of wall-clock (naive) time in
  the single timezone shared by all intervals of a file.  Python `datetime`
  arithmetic on aware datetimes is naive wall-clock arithmetic, `.date()` is
  floor division by 86400 and `.time()` is the residue, and Python's floor
  division `//` and modulo `%` agree with Lean's `Int` `/` and `%` (Euclidean)
  for the positive divisors (30, 60, 3600, 86400) used throughout.
* Sleep stages are the Python strings themselves ("WAKE", "Light", ...).
* The `H:MM:SS` duration strings produced by `calculate_duration` /
  `format_timedelta` are modeled by the triple of integers they display
  (`HMS`), plus a rendering function to `String`; `parse_duration_string`
  (split on ":" and `int()`) recovers exactly that triple from the string, so
  it is modeled as consuming the triple.
* Python code that raises an uncaught exception is modeled with `Option`:
  `none` marks the raise point (`sleep_data[0]` on an empty list,
  `segments[0]` inside the eagerly-evaluated fallback of `next`).
-/

namespace Apple2Dreem

/-- Python `class SleepSegment` (line 12): one 30-second slot of the timeline. -/
structure SleepSegment where
  Start : Int
  Stage : String
deriving DecidableEq

/-- Python `class SleepEntry` (line 17): one raw sleep-stage interval.
`Qty` is only ever checked for finiteness during validation and never enters
any computation, so it is modeled as an `Int`. -/
structure SleepEntry where
  Source : String
  Qty : Int
  StartDate : Int
  Value : String
  EndDate : Int
deriving DecidableEq

/-- The integer triple displayed by an `H:MM:SS` duration string. -/
structure HMS where
  h : Int
  m : Int
  s : Int
deriving DecidableEq

/-- Two-digit zero padding, Python `f"{n:02d}"` (our minute/second values are
always in `[0, 60)`). -/
def pad2 (n : Int) : String :=
  if n < 10 then ("0" ++ toString n) else toString n

/-- Rendering of an `H:MM:SS` duration string from its triple. -/
def renderHMS (d : HMS) : String :=
  toString d.h ++ ":" ++ pad2 d.m ++ ":" ++ pad2 d.s

/-- Shared body of `calculate_duration` (lines 80-86) and `format_timedelta`
(lines 92-97): split a number of seconds into the displayed `H:MM:SS` triple.
Python: `hours = t // 3600; minutes = (t % 3600) // 60; seconds = t % 60`. -/
def secondsToHMS (total_seconds : Int) : HMS :=
  ⟨total_seconds / 3600, total_seconds % 3600 / 60, total_seconds % 60⟩

/-- Python `calculate_duration` (lines 80-86): the `H:MM:SS` display of `end - start`. -/
def calculate_duration (start_time end_time : Int) : HMS :=
  secondsToHMS (end_time - start_time)

/-- Python `format_timedelta` (lines 92-97): same computation on a timedelta. -/
def format_timedelta (td : Int) : HMS :=
  secondsToHMS td

/-- Python `parse_duration_string` (lines 88-90): split on ":", convert with `int`,
rebuild the timedelta.  Splitting inverts the rendering exactly, so the model
consumes the displayed triple. -/
def parse_duration_string (d : HMS) : Int :=
  d.h * 3600 + d.m * 60 + d.s

/-- Python `apply_time_shift` (lines 99-100). -/
def apply_time_shift (date_time : Int) (shift_seconds : Int) : Int :=
  date_time + shift_seconds

/-- Python `map_sleep_stage` (lines 59-68): the fixed vocabulary mapping,
`dict.get` defaulting to "WAKE". -/
def map_sleep_stage (stage : String) : String :=
  match stage with
  | "Core" => "Light"
  | "Asleep" => "Asleep"
  | "Deep" => "Deep"
  | "REM" => "REM"
  | "Awake" => "WAKE"
  | "InBed" => "WAKE"
  | _ => "WAKE"

/-- Python `create_30s_segments` (lines 51-57): `while current_time < end_time`,
emit a "WAKE" slot and advance 30 seconds. -/
def create_30s_segments (start_time end_time : Int) : List SleepSegment :=
  if start_time < end_time then
    ⟨start_time, "WAKE"⟩ :: create_30s_segments (start_time + 30) end_time
  else []
termination_by (end_time - start_time).toNat
decreasing_by simp_wf; omega

/-- The inner loop of `update_segments_with_sleep_data` (lines 76-78): one
entry swept over all segments, overwriting slots that the interval covers and
that are still "WAKE". -/
def overlayEntry (segments : List SleepSegment) (entry : SleepEntry) : List SleepSegment :=
  segments.map fun segment =>
    if entry.StartDate ≤ segment.Start ∧ segment.Start ≤ entry.EndDate ∧
        segment.Stage = "WAKE" then
      { segment with Stage := map_sleep_stage entry.Value }
    else segment

/-- Python `update_segments_with_sleep_data` (lines 70-78): the outer loop over
entries, threading the mutated segment list. -/
def update_segments_with_sleep_data (segments : List SleepSegment)
    (sleep_data : List SleepEntry) : List SleepSegment :=
  sleep_data.foldl overlayEntry segments

/-- The `stage_durations` accumulation (lines 123-132): a dict from stage name
to accumulated seconds, starting at zero, adding 30 seconds per segment to the
segment's stage.  The dict is modeled as a function `String → Int`. -/
def stage_durations (segments : List SleepSegment) : String → Int :=
  segments.foldl (fun d segment k => if k = segment.Stage then d k + 30 else d k)
    (fun _ => 0)

/-- Python `num_awakenings` (lines 136-139): count adjacent pairs
(`zip(segments, segments[1:])`) whose first slot is non-"WAKE" and whose
second is "WAKE". -/
def num_awakenings (segments : List SleepSegment) : Nat :=
  (segments.zip segments.tail).countP fun p =>
    !(p.1.Stage == "WAKE") && (p.2.Stage == "WAKE")

/-- Python `max(entry.EndDate for entry in sleep_data)` (line 110) over the nonempty
list `first :: rest`. -/
def maxEndDate (first : SleepEntry) (rest : List SleepEntry) : Int :=
  rest.foldl (fun acc entry => max acc entry.EndDate) first.EndDate

/-- Python `sorted(sleep_data, key=lambda entry: entry.StartDate)` (line 103):
a stable sort by start date. -/
def sortEntries (sleep_data : List SleepEntry) : List SleepEntry :=
  sleep_data.mergeSort fun a b => decide (a.StartDate ≤ b.StartDate)

/-- The per-entry shift of lines 105-107. -/
def shiftEntry (shift_seconds : Int) (entry : SleepEntry) : SleepEntry :=
  { entry with
    StartDate := apply_time_shift entry.StartDate shift_seconds
    EndDate := apply_time_shift entry.EndDate shift_seconds }

/-- Python `OutputData` (lines 25-42), as filled in by `process_health_data`
(lines 143-159).  `Type` is a Lean keyword, hence the field name `OutputType`.
`StartTime`/`StopTime` hold the timestamps whose `strftime` rendering the
Python stores; duration fields hold the rendered `H:MM:SS` strings. -/
structure OutputData where
  OutputType : String
  StartTime : Int
  StopTime : Int
  SleepDuration : String
  SleepOnsetDuration : String
  LightSleepDuration : String
  DeepSleepDuration : String
  REMDuration : String
  WakeAfterSleepOnsetDuration : String
  NumberOfAwakenings : Nat
  PositionChanges : Nat
  MeanHeartRate : Nat
  MeanRespirationCPM : Nat
  NumberOfStimulations : Nat
  SleepEfficiency : Nat
  Hypnogram : String
deriving DecidableEq

/-- The overlaid timeline of `process_health_data` (lines 109-116), for the
already sorted-and-shifted nonempty entry list `first :: rest`:
`create_30s_segments(start_time, end_time)` overlaid with all entries. -/
def nightTimelineOf (first : SleepEntry) (rest : List SleepEntry) : List SleepSegment :=
  update_segments_with_sleep_data
    (create_30s_segments first.StartDate (maxEndDate first rest))
    (first :: rest)

/-- Python `process_health_data` (lines 102-159) after sorting and shifting, on the
nonempty entry list `first :: rest`.  Returns `none` where the Python raises
`IndexError`: the eager `segments[0]` fallback of line 120 on an empty
segment list. -/
def summarizeCore (first : SleepEntry) (rest : List SleepEntry) : Option OutputData :=
  let start_time := first.StartDate
  let end_time := maxEndDate first rest
  let segments := nightTimelineOf first rest
  match segments with
  | [] => none
  | s0 :: _ =>
    let sleep_onset_segment :=
      (segments.find? fun segment => !(segment.Stage == "WAKE")).getD s0
    let sleep_onset_duration := calculate_duration start_time sleep_onset_segment.Start
    let wake_after_sleep_onset :=
      stage_durations segments ("WAKE") - parse_duration_string sleep_onset_duration
    some
      { OutputType := "night"
        StartTime := start_time
        StopTime := end_time
        SleepDuration := renderHMS (calculate_duration start_time end_time)
        SleepOnsetDuration := renderHMS sleep_onset_duration
        LightSleepDuration := renderHMS (format_timedelta (stage_durations segments ("Light")))
        DeepSleepDuration := renderHMS (format_timedelta (stage_durations segments ("Deep")))
        REMDuration := renderHMS (format_timedelta (stage_durations segments ("REM")))
        WakeAfterSleepOnsetDuration := renderHMS (format_timedelta wake_after_sleep_onset)
        NumberOfAwakenings := num_awakenings segments
        PositionChanges := 0
        MeanHeartRate := 0
        MeanRespirationCPM := 0
        NumberOfStimulations := 0
        SleepEfficiency := 0
        Hypnogram := "[" ++ String.intercalate (",") (segments.map SleepSegment.Stage) ++ "]" }

/-- Python `process_health_data` (lines 102-159): sort, shift, summarize.  `none`
models the `IndexError` of line 109 on an empty list, or the one of
line 120 on an empty timeline. -/
def process_health_data (sleep_data : List SleepEntry)
    (time_shift_seconds : Int) : Option OutputData :=
  match (sortEntries sleep_data).map (shiftEntry time_shift_seconds) with
  | [] => none
  | first :: rest => summarizeCore first rest

/-- The overlaid timeline produced inside `process_health_data`, starting from
the raw entry list (empty when the input is empty). -/
def nightTimeline (sleep_data : List SleepEntry) (time_shift_seconds : Int) :
    List SleepSegment :=
  match (sortEntries sleep_data).map (shiftEntry time_shift_seconds) with
  | [] => []
  | first :: rest => nightTimelineOf first rest

/-! ### Night grouping (`process_file`, lines 263-298) -/

/-- The night-date rule of lines 277-281: if the start's clock time is at or
after 19:00 the night date is the start's own calendar date, otherwise the
previous calendar date.  `t % 86400` is Python `start_dt.time()` in seconds,
`t / 86400` is `start_dt.date()`; `(start_dt - timedelta(days=1)).date()` is
`(t - 86400) / 86400`. -/
def nightDateOf (start_dt : Int) : Int :=
  if start_dt % 86400 ≥ 19 * 3600 then start_dt / 86400
  else (start_dt - 86400) / 86400

/-- Python `night_start_dt` (line 284): 19:00 on the night date. -/
def nightWindowStart (night_date : Int) : Int :=
  night_date * 86400 + 19 * 3600

/-- Python `night_end_dt` (line 285): 11:00 on the following day. -/
def nightWindowEnd (night_date : Int) : Int :=
  (night_date + 1) * 86400 + 11 * 3600

/-- The filter condition of lines 288-289, exactly as the code writes it:
`start_dt >= night_start_dt and end_dt <= night_end_dt and
 start_dt >= from_date and end_dt <= to_date`. -/
def entryPassesFilter (from_date to_date : Int) (entry : SleepEntry) : Prop :=
  nightWindowStart (nightDateOf entry.StartDate) ≤ entry.StartDate ∧
  entry.EndDate ≤ nightWindowEnd (nightDateOf entry.StartDate) ∧
  from_date ≤ entry.StartDate ∧ entry.EndDate ≤ to_date

instance (from_date to_date : Int) (entry : SleepEntry) :
    Decidable (entryPassesFilter from_date to_date entry) := by
  unfold entryPassesFilter; infer_instance

/-- The loop state of lines 269-271: `grouped_sleep_data`,
`current_night_start` (initially `None`), `current_night_entries`. -/
structure GroupState where
  grouped : List (Option Int × List SleepEntry)
  current_night_start : Option Int
  current_night_entries : List SleepEntry
deriving DecidableEq

/-- One iteration of the grouping loop (lines 273-295). -/
def groupStep (from_date to_date : Int) (st : GroupState) (entry : SleepEntry) :
    GroupState :=
  let night_date := nightDateOf entry.StartDate
  if entryPassesFilter from_date to_date entry then
    if st.current_night_start ≠ some night_date then
      { grouped :=
          if st.current_night_entries.isEmpty then st.grouped
          else st.grouped ++ [(st.current_night_start, st.current_night_entries)]
        current_night_start := some night_date
        current_night_entries := [entry] }
    else
      { st with current_night_entries := st.current_night_entries ++ [entry] }
  else st

/-- The whole grouping pass (lines 269-298), including the final flush of
`current_night_entries`. -/
def groupNights (from_date to_date : Int) (entries : List SleepEntry) :
    List (Option Int × List SleepEntry) :=
  let final := entries.foldl (groupStep from_date to_date) ⟨[], none, []⟩
  if final.current_night_entries.isEmpty then final.grouped
  else final.grouped ++ [(final.current_night_start, final.current_night_entries)]

/-! ### Spec-side definitions (for refinement comparisons only) -/

/-- Modelled from the spec's words (section 4.3 / claim C6): membership in the
*half-open* canonical night window `[nightDate 19:00, nightDate+1 11:00)`
together with the `[fromDate, toDate]` filter.  This is the claimed condition,
to be compared with the code's `entryPassesFilter` (which closes the window at
the 11:00 end). -/
def entryPassesFilterSpec (from_date to_date : Int) (entry : SleepEntry) : Prop :=
  nightWindowStart (nightDateOf entry.StartDate) ≤ entry.StartDate ∧
  entry.EndDate < nightWindowEnd (nightDateOf entry.StartDate) ∧
  from_date ≤ entry.StartDate ∧ entry.EndDate ≤ to_date

instance (from_date to_date : Int) (entry : SleepEntry) :
    Decidable (entryPassesFilterSpec from_date to_date entry) := by
  unfold entryPassesFilterSpec; infer_instance

/-- Spec-side recursive formulation of the awakening count (claim C8): the
number of adjacent positions where a non-"WAKE" slot is followed by a "WAKE"
slot. -/
def awakeningTransitions : List SleepSegment → Nat
  | a :: b :: rest =>
    (if a.Stage ≠ "WAKE" ∧ b.Stage = "WAKE" then 1 else 0) + awakeningTransitions (b :: rest)
  | _ => 0

/-- The sum of the five per-stage cumulative durations of lines 123-132. -/
def sumFiveStageDurations (segments : List SleepSegment) : Int :=
  stage_durations segments ("Asleep") + stage_durations segments ("Light") +
    stage_durations segments ("Deep") + stage_durations segments ("REM") +
    stage_durations segments ("WAKE")

/-- Shift a segment's start time (used to state shift equivariance). -/
def shiftSeg (c : Int) (segment : SleepSegment) : SleepSegment :=
  { segment with Start := segment.Start + c }

/-- Shift only the start and stop times of an output record (used to state
claim C4: everything else is untouched). -/
def shiftOutput (c : Int) (o : OutputData) : OutputData :=
  { o with StartTime := o.StartTime + c, StopTime := o.StopTime + c }

/-- The five canonical stage labels. -/
def validStage (s : String) : Prop :=
  s = "Asleep" ∨ s = "Light" ∨ s = "Deep" ∨ s = "REM" ∨ s = "WAKE"

/-- All entries held by a grouping state: emitted groups plus the running
group. -/
def collectedEntries (st : GroupState) : List SleepEntry :=
  st.grouped.flatMap Prod.snd ++ st.current_night_entries

/-! ### Lemmas about the timeline builder -/

/-- Closed form of the slot-building loop: slot `k` starts at
`start + 30 * k`, and there are `⌈(end - start) / 30⌉` slots (in `Nat`
ceiling-division form). -/
theorem create_30s_segments_closedForm (start_time end_time : Int) :
    create_30s_segments start_time end_time =
      (List.range (((end_time - start_time).toNat + 29) / 30)).map
        (fun k => ⟨start_time + 30 * (k : Int), "WAKE"⟩) := by
  rw [create_30s_segments]
  split
  · next h =>
    rw [create_30s_segments_closedForm (start_time + 30) end_time]
    have hm : ((end_time - start_time).toNat + 29) / 30 =
        ((end_time - (start_time + 30)).toNat + 29) / 30 + 1 := by omega
    rw [hm, List.range_succ_eq_map, List.map_cons, List.map_map]
    congr 1
    · simp
    · refine List.map_congr_left fun a _ => ?_
      simp only [Function.comp_apply, Nat.succ_eq_add_one, SleepSegment.mk.injEq]
      refine ⟨by push_cast; ring, trivial⟩
  · next h =>
    have hz : ((end_time - start_time).toNat + 29) / 30 = 0 := by omega
    rw [hz]
    rfl
termination_by (end_time - start_time).toNat
decreasing_by simp_wf; omega

/-- The slot count is the ceiling of the span divided by 30 seconds. -/
theorem create_30s_segments_length (start_time end_time : Int) :
    (create_30s_segments start_time end_time).length =
      ((end_time - start_time).toNat + 29) / 30 := by
  rw [create_30s_segments_closedForm]; simp

/-- Every freshly built slot is a "WAKE" slot. -/
theorem create_30s_segments_stage (start_time end_time : Int) :
    ∀ segment ∈ create_30s_segments start_time end_time, segment.Stage = "WAKE" := by
  rw [create_30s_segments_closedForm]
  intro segment hmem
  obtain ⟨k, -, rfl⟩ := List.mem_map.mp hmem
  rfl

/-- Shifting both endpoints shifts every slot start and changes nothing else. -/
theorem create_30s_segments_shift (c start_time end_time : Int) :
    create_30s_segments (start_time + c) (end_time + c) =
      (create_30s_segments start_time end_time).map (shiftSeg c) := by
  rw [create_30s_segments_closedForm, create_30s_segments_closedForm]
  have hspan : end_time + c - (start_time + c) = end_time - start_time := by ring
  rw [hspan, List.map_map]
  refine List.map_congr_left fun a _ => ?_
  simp only [Function.comp_apply, shiftSeg, SleepSegment.mk.injEq]
  exact ⟨by ring, trivial⟩

/-! ### Lemmas about the overlay -/

theorem update_nil (segments : List SleepSegment) :
    update_segments_with_sleep_data segments [] = segments := rfl

theorem update_cons (segments : List SleepSegment) (entry : SleepEntry)
    (rest : List SleepEntry) :
    update_segments_with_sleep_data segments (entry :: rest) =
      update_segments_with_sleep_data (overlayEntry segments entry) rest := rfl

theorem overlayEntry_getElem? (segments : List SleepSegment) (entry : SleepEntry)
    (i : Nat) :
    (overlayEntry segments entry)[i]? =
      (segments[i]?).map fun segment =>
        if entry.StartDate ≤ segment.Start ∧ segment.Start ≤ entry.EndDate ∧
            segment.Stage = "WAKE" then
          { segment with Stage := map_sleep_stage entry.Value }
        else segment := by
  unfold overlayEntry
  rw [List.getElem?_map]

/-- A slot that already carries a non-"WAKE" stage is never touched again. -/
theorem update_preserves_nonwake (sleep_data : List SleepEntry) :
    ∀ (segments : List SleepSegment) (i : Nat) (segment : SleepSegment),
      segments[i]? = some segment → segment.Stage ≠ "WAKE" →
      (update_segments_with_sleep_data segments sleep_data)[i]? = some segment := by
  induction sleep_data with
  | nil => intro segments i segment h _; simpa [update_nil] using h
  | cons entry rest ih =>
    intro segments i segment h hst
    rw [update_cons]
    refine ih _ i segment ?_ hst
    rw [overlayEntry_getElem?, h]
    simp [hst]

/-- Overlaying preserves the number of slots and every slot start. -/
theorem update_length (sleep_data : List SleepEntry) (segments : List SleepSegment) :
    (update_segments_with_sleep_data segments sleep_data).length = segments.length := by
  induction sleep_data generalizing segments with
  | nil => rfl
  | cons entry rest ih => rw [update_cons, ih]; simp [overlayEntry]

/-! ### Lemmas about the statistics -/

/-- The dict-accumulation loop, with a general accumulator. -/
theorem stage_durations_foldl (segments : List SleepSegment) (d : String → Int)
    (k : String) :
    segments.foldl (fun d segment k => if k = segment.Stage then d k + 30 else d k) d k =
      d k + 30 * (segments.countP (fun s => s.Stage == k) : Int) := by
  induction segments generalizing d with
  | nil => simp
  | cons a t ih =>
    rw [List.foldl_cons, ih, List.countP_cons]
    by_cases h : a.Stage = k
    · simp only [h, beq_self_eq_true, if_true, if_pos rfl]
      push_cast
      ring
    · have hk : ¬ k = a.Stage := fun hk => h hk.symm
      simp only [if_neg hk, beq_iff_eq, if_neg h]
      push_cast
      ring

/-- The per-stage cumulative duration is 30 seconds per slot with that stage. -/
theorem stage_durations_eq_countP (segments : List SleepSegment) (k : String) :
    stage_durations segments k =
      30 * (segments.countP (fun s => s.Stage == k) : Int) := by
  unfold stage_durations
  rw [stage_durations_foldl]
  simp

/-- The code's zip-based awakening count agrees with the recursive
transition count. -/
theorem num_awakenings_eq_transitions (segments : List SleepSegment) :
    num_awakenings segments = awakeningTransitions segments := by
  induction segments with
  | nil => rfl
  | cons a t ih =>
    cases t with
    | nil => rfl
    | cons b r =>
      have hz : num_awakenings (a :: b :: r) =
          ((if !(a.Stage == "WAKE") && (b.Stage == "WAKE") then 1 else 0) +
            num_awakenings (b :: r)) := by
        simp only [num_awakenings, List.tail_cons, List.zip_cons_cons, List.countP_cons]
        exact Nat.add_comm _ _
      have hrw : awakeningTransitions (a :: b :: r) =
          (if a.Stage ≠ "WAKE" ∧ b.Stage = "WAKE" then 1 else 0) +
            awakeningTransitions (b :: r) := rfl
      rw [hz, ih, hrw]
      by_cases h1 : a.Stage = "WAKE" <;> by_cases h2 : b.Stage = "WAKE" <;>
        simp [h1, h2]

theorem map_sleep_stage_valid (v : String) : validStage (map_sleep_stage v) := by
  unfold map_sleep_stage validStage
  split <;> simp

/-- Every slot of an overlaid timeline carries one of the five stages,
provided the input slots do (which freshly built "WAKE" slots do). -/
theorem update_valid_stages (sleep_data : List SleepEntry) :
    ∀ segments : List SleepSegment, (∀ s ∈ segments, validStage s.Stage) →
      ∀ s ∈ update_segments_with_sleep_data segments sleep_data, validStage s.Stage := by
  induction sleep_data with
  | nil => intro segments h; simpa [update_nil] using h
  | cons entry rest ih =>
    intro segments h
    rw [update_cons]
    refine ih _ ?_
    intro s hs
    obtain ⟨s₀, hs₀, rfl⟩ := List.mem_map.mp hs
    by_cases hc : entry.StartDate ≤ s₀.Start ∧ s₀.Start ≤ entry.EndDate ∧
        s₀.Stage = "WAKE"
    · rw [if_pos hc]; exact map_sleep_stage_valid entry.Value
    · rw [if_neg hc]; exact h s₀ hs₀

/-- Slots whose stage is one of the five labels are counted exactly once by
the five per-stage counts. -/
theorem countP_five_stages (segments : List SleepSegment)
    (h : ∀ s ∈ segments, validStage s.Stage) :
    segments.countP (fun s => s.Stage == "Asleep") +
      segments.countP (fun s => s.Stage == "Light") +
      segments.countP (fun s => s.Stage == "Deep") +
      segments.countP (fun s => s.Stage == "REM") +
      segments.countP (fun s => s.Stage == "WAKE") = segments.length := by
  induction segments with
  | nil => simp
  | cons a t ih =>
    have ht : ∀ s ∈ t, validStage s.Stage := fun s hs => h s (List.mem_cons_of_mem a hs)
    have ha : validStage a.Stage := h a (List.mem_cons_self a t)
    have hrec := ih ht
    simp only [List.countP_cons, List.length_cons]
    rcases ha with h5 | h5 | h5 | h5 | h5 <;> simp [h5] <;> omega

/-- The five per-stage durations always sum to 30 seconds per slot. -/
theorem sumFive_eq_length (segments : List SleepSegment)
    (h : ∀ s ∈ segments, validStage s.Stage) :
    sumFiveStageDurations segments = 30 * (segments.length : Int) := by
  unfold sumFiveStageDurations
  rw [stage_durations_eq_countP, stage_durations_eq_countP, stage_durations_eq_countP,
    stage_durations_eq_countP, stage_durations_eq_countP]
  have := countP_five_stages segments h
  omega

/-- Round trip of the duration strings: parsing the rendered `H:MM:SS` of a
duration recovers the duration, for any (possibly negative) whole number of
seconds, because Python's floor division and modulo reconstruct exactly. -/
theorem parse_format_roundtrip (t : Int) :
    parse_duration_string (secondsToHMS t) = t := by
  simp only [parse_duration_string, secondsToHMS]
  omega

/-! ### Shift equivariance of the pipeline -/

theorem overlayEntry_shift (c : Int) (segments : List SleepSegment) (entry : SleepEntry) :
    overlayEntry (segments.map (shiftSeg c)) (shiftEntry c entry) =
      (overlayEntry segments entry).map (shiftSeg c) := by
  unfold overlayEntry
  rw [List.map_map, List.map_map]
  refine List.map_congr_left fun s _ => ?_
  simp only [Function.comp_apply, shiftEntry, shiftSeg, apply_time_shift]
  by_cases h : entry.StartDate ≤ s.Start ∧ s.Start ≤ entry.EndDate ∧ s.Stage = "WAKE"
  · rw [if_pos ⟨by omega, by omega, h.2.2⟩, if_pos h]
  · rw [if_neg (fun hc => h ⟨by omega, by omega, hc.2.2⟩), if_neg h]

theorem update_shift (c : Int) (sleep_data : List SleepEntry) :
    ∀ segments : List SleepSegment,
      update_segments_with_sleep_data (segments.map (shiftSeg c))
          (sleep_data.map (shiftEntry c)) =
        (update_segments_with_sleep_data segments sleep_data).map (shiftSeg c) := by
  induction sleep_data with
  | nil => intro segments; rfl
  | cons entry rest ih =>
    intro segments
    rw [List.map_cons, update_cons, update_cons, overlayEntry_shift, ih]

theorem foldl_max_shift (c : Int) (l : List SleepEntry) :
    ∀ a : Int,
      (l.map (shiftEntry c)).foldl (fun acc entry => max acc entry.EndDate) (a + c) =
        l.foldl (fun acc entry => max acc entry.EndDate) a + c := by
  induction l with
  | nil => intro a; rfl
  | cons e t ih =>
    intro a
    rw [List.map_cons, List.foldl_cons, List.foldl_cons]
    have : max (a + c) ((shiftEntry c e).EndDate) = max a e.EndDate + c := by
      simp only [shiftEntry, apply_time_shift]
      exact max_add_add_right a e.EndDate c
    rw [this, ih]

theorem maxEndDate_shift (c : Int) (first : SleepEntry) (rest : List SleepEntry) :
    maxEndDate (shiftEntry c first) (rest.map (shiftEntry c)) =
      maxEndDate first rest + c := by
  unfold maxEndDate
  have hfe : (shiftEntry c first).EndDate = first.EndDate + c := rfl
  rw [hfe, foldl_max_shift]

theorem nightTimelineOf_shift (c : Int) (first : SleepEntry) (rest : List SleepEntry) :
    nightTimelineOf (shiftEntry c first) (rest.map (shiftEntry c)) =
      (nightTimelineOf first rest).map (shiftSeg c) := by
  unfold nightTimelineOf
  have hfs : (shiftEntry c first).StartDate = first.StartDate + c := rfl
  rw [hfs, maxEndDate_shift, create_30s_segments_shift]
  have hcons : shiftEntry c first :: rest.map (shiftEntry c) =
      (first :: rest).map (shiftEntry c) := rfl
  rw [hcons, update_shift]

theorem calculate_duration_shift (c a b : Int) :
    calculate_duration (a + c) (b + c) = calculate_duration a b := by
  unfold calculate_duration
  congr 1
  ring

theorem stage_durations_shift (c : Int) (segments : List SleepSegment) (k : String) :
    stage_durations (segments.map (shiftSeg c)) k = stage_durations segments k := by
  rw [stage_durations_eq_countP, stage_durations_eq_countP, List.countP_map]
  rfl

theorem num_awakenings_shift (c : Int) (segments : List SleepSegment) :
    num_awakenings (segments.map (shiftSeg c)) = num_awakenings segments := by
  cases segments with
  | nil => rfl
  | cons a t =>
    unfold num_awakenings
    rw [List.map_cons, List.tail_cons, List.tail_cons]
    have hz : (shiftSeg c a :: t.map (shiftSeg c)).zip (t.map (shiftSeg c)) =
        ((a :: t).zip t).map (Prod.map (shiftSeg c) (shiftSeg c)) := by
      have : shiftSeg c a :: t.map (shiftSeg c) = (a :: t).map (shiftSeg c) := rfl
      rw [this, List.zip_map]
    rw [hz, List.countP_map]
    rfl

theorem find?_nonwake_shift (c : Int) (segments : List SleepSegment) :
    (segments.map (shiftSeg c)).find? (fun s => !(s.Stage == "WAKE")) =
      (segments.find? (fun s => !(s.Stage == "WAKE"))).map (shiftSeg c) := by
  rw [List.find?_map]
  rfl

theorem stages_map_shift (c : Int) (segments : List SleepSegment) :
    (segments.map (shiftSeg c)).map SleepSegment.Stage =
      segments.map SleepSegment.Stage := by
  rw [List.map_map]
  rfl

/-- Summarizing a uniformly shifted entry list shifts only the start and stop
times of the output. -/
theorem summarizeCore_shift (c : Int) (first : SleepEntry) (rest : List SleepEntry) :
    summarizeCore (shiftEntry c first) (rest.map (shiftEntry c)) =
      Option.map (shiftOutput c) (summarizeCore first rest) := by
  cases h : nightTimelineOf first rest with
  | nil =>
    have h' : nightTimelineOf (shiftEntry c first) (rest.map (shiftEntry c)) = [] := by
      rw [nightTimelineOf_shift, h, List.map_nil]
    simp [summarizeCore, h, h']
  | cons s0 ss =>
    have h' : nightTimelineOf (shiftEntry c first) (rest.map (shiftEntry c)) =
        shiftSeg c s0 :: ss.map (shiftSeg c) := by
      rw [nightTimelineOf_shift, h, List.map_cons]
    simp only [summarizeCore, h, h', Option.map_some']
    have hml : shiftSeg c s0 :: ss.map (shiftSeg c) = (s0 :: ss).map (shiftSeg c) :=
      (List.map_cons _ _ _).symm
    rw [hml, find?_nonwake_shift, Option.getD_map]
    have hfs : (shiftEntry c first).StartDate = first.StartDate + c := rfl
    have hos : ∀ x : SleepSegment, (shiftSeg c x).Start = x.Start + c := fun _ => rfl
    rw [hfs, maxEndDate_shift, hos]
    simp only [calculate_duration_shift, stage_durations_shift, num_awakenings_shift,
      stages_map_shift]
    simp [shiftOutput]

/-! ### Lemmas about the night grouper -/

theorem collected_groupStep (from_date to_date : Int) (st : GroupState)
    (e : SleepEntry) :
    collectedEntries (groupStep from_date to_date st e) =
      collectedEntries st ++
        if entryPassesFilter from_date to_date e then [e] else [] := by
  unfold groupStep collectedEntries
  by_cases hp : entryPassesFilter from_date to_date e
  · rw [if_pos hp, if_pos hp]
    by_cases hn : st.current_night_start ≠ some (nightDateOf e.StartDate)
    · rw [if_pos hn]
      by_cases he : st.current_night_entries.isEmpty
      · have hnil : st.current_night_entries = [] := List.isEmpty_iff.mp he
        simp [he, hnil]
      · simp [he, List.flatMap_append, List.append_assoc]
    · rw [if_neg hn]
      simp [List.append_assoc]
  · rw [if_neg hp, if_neg hp]
    simp

theorem collected_foldl (from_date to_date : Int) (es : List SleepEntry) :
    ∀ st : GroupState,
      collectedEntries (es.foldl (groupStep from_date to_date) st) =
        collectedEntries st ++
          es.filter (fun e => decide (entryPassesFilter from_date to_date e)) := by
  induction es with
  | nil => intro st; simp
  | cons e tl ih =>
    intro st
    rw [List.foldl_cons, ih, collected_groupStep, List.filter_cons]
    by_cases hp : entryPassesFilter from_date to_date e
    · simp [hp]
    · simp [hp]

/-- The entries appearing in the grouper's output are exactly the entries
passing the filter condition, in input order. -/
theorem groupNights_flatMap (from_date to_date : Int) (es : List SleepEntry) :
    (groupNights from_date to_date es).flatMap Prod.snd =
      es.filter (fun e => decide (entryPassesFilter from_date to_date e)) := by
  unfold groupNights
  have h2 := collected_foldl from_date to_date es ⟨[], none, []⟩
  unfold collectedEntries at h2
  simp only [List.flatMap_nil, List.nil_append] at h2
  by_cases he : (es.foldl (groupStep from_date to_date) ⟨[], none, []⟩).current_night_entries.isEmpty
  · rw [if_pos he]
    have hnil := List.isEmpty_iff.mp he
    rw [hnil, List.append_nil] at h2
    exact h2
  · rw [if_neg he]
    rw [List.flatMap_append]
    simpa using h2

theorem groupStep_groups_nonempty (from_date to_date : Int) (st : GroupState)
    (e : SleepEntry) (h : ∀ g ∈ st.grouped, g.2 ≠ []) :
    ∀ g ∈ (groupStep from_date to_date st e).grouped, g.2 ≠ [] := by
  unfold groupStep
  by_cases hp : entryPassesFilter from_date to_date e
  · rw [if_pos hp]
    by_cases hn : st.current_night_start ≠ some (nightDateOf e.StartDate)
    · rw [if_pos hn]
      by_cases he : st.current_night_entries.isEmpty
      · simpa [he] using h
      · intro g hg
        have hg' : g ∈ st.grouped ++ [(st.current_night_start, st.current_night_entries)] := by
          simpa [he] using hg
        rcases List.mem_append.mp hg' with hg2 | hg2
        · exact h g hg2
        · have hgp : g = (st.current_night_start, st.current_night_entries) := by
            simpa using hg2
          subst hgp
          exact fun hc => he (List.isEmpty_iff.mpr hc)
    · rw [if_neg hn]
      exact h
  · rw [if_neg hp]
    exact h

theorem foldl_groups_nonempty (from_date to_date : Int) (es : List SleepEntry) :
    ∀ st : GroupState, (∀ g ∈ st.grouped, g.2 ≠ []) →
      ∀ g ∈ (es.foldl (groupStep from_date to_date) st).grouped, g.2 ≠ [] := by
  induction es with
  | nil => intro st h; exact h
  | cons e tl ih =>
    intro st h
    exact ih _ (groupStep_groups_nonempty from_date to_date st e h)

/-! ### Concrete evaluations used by witnesses and counterexamples -/

theorem create_0_45_eval :
    create_30s_segments 0 45 = [⟨0, "WAKE"⟩, ⟨30, "WAKE"⟩] := by
  rw [create_30s_segments_closedForm]
  rfl

theorem create_0_60_eval :
    create_30s_segments 0 60 = [⟨0, "WAKE"⟩, ⟨30, "WAKE"⟩] := by
  rw [create_30s_segments_closedForm]
  rfl

theorem timeline_example_eval :
    nightTimelineOf ⟨"w", 0, 0, "Asleep", 60⟩ [] =
      [⟨0, "Asleep"⟩, ⟨30, "Asleep"⟩] := by
  show update_segments_with_sleep_data (create_30s_segments 0 60)
      [⟨"w", 0, 0, "Asleep", 60⟩] = _
  rw [create_0_60_eval]
  decide

theorem summarize_example_eval :
    summarizeCore ⟨"w", 0, 0, "Asleep", 60⟩ [] =
      some ⟨"night", 0, 60, "0:01:00", "0:00:00", "0:00:00", "0:00:00", "0:00:00",
        "0:00:00", 0, 0, 0, 0, 0, 0, "[Asleep,Asleep]"⟩ := by
  simp only [summarizeCore, timeline_example_eval]
  decide

/-! ### Claims -/

/-- C1 counterexample: on the span `[0, 45)` the summarizer builds two slots,
so the five per-stage durations sum to 60 seconds, while the span rounded
*down* to the nearest 30 seconds is 30 — the claimed equality fails. -/
theorem C1_counterexample :
    sumFiveStageDurations
        (update_segments_with_sleep_data (create_30s_segments 0 45) []) = 60 ∧
    ¬ sumFiveStageDurations
          (update_segments_with_sleep_data (create_30s_segments 0 45) []) =
        45 - 45 % 30 := by
  rw [update_nil, create_0_45_eval]
  exact ⟨by decide, by decide⟩

/-- C1 (amended): for `start ≤ end`, the five per-stage cumulative durations
of the overlaid timeline sum to 30 seconds times the slot count, and that
total is the span rounded *up* to the nearest 30 seconds. -/
theorem C1_stage_duration_sum (start_time end_time : Int)
    (entries : List SleepEntry) (h : start_time ≤ end_time) :
    sumFiveStageDurations
        (update_segments_with_sleep_data (create_30s_segments start_time end_time)
          entries) =
      30 * ((create_30s_segments start_time end_time).length : Int) ∧
    30 * ((create_30s_segments start_time end_time).length : Int) =
      30 * ((end_time - start_time + 29) / 30) := by
  constructor
  · have hvalid : ∀ s ∈ create_30s_segments start_time end_time, validStage s.Stage :=
      fun s hs => Or.inr (Or.inr (Or.inr (Or.inr (create_30s_segments_stage _ _ s hs))))
    rw [sumFive_eq_length _ (update_valid_stages entries _ hvalid), update_length]
  · rw [create_30s_segments_length]
    omega

theorem C1_stage_duration_sum_witness :
    (0 : Int) ≤ 45 ∧
    (sumFiveStageDurations
          (update_segments_with_sleep_data (create_30s_segments 0 45) []) =
        30 * ((create_30s_segments 0 45).length : Int) ∧
      30 * ((create_30s_segments 0 45).length : Int) =
        30 * (((45 : Int) - 0 + 29) / 30)) :=
  ⟨by decide, C1_stage_duration_sum 0 45 [] (by decide)⟩

/-- C2 counterexample: the span 45 seconds is not an exact multiple of 30,
floor division predicts 1 slot, but the builder produces 2. -/
theorem C2_counterexample :
    (create_30s_segments 0 45).length = 2 ∧ (45 : Int) % 30 ≠ 0 ∧
      (((45 : Int) - 0) / 30).toNat = 1 ∧
      (create_30s_segments 0 45).length ≠ (((45 : Int) - 0) / 30).toNat := by
  rw [create_0_45_eval]
  exact ⟨by decide, by decide, by decide, by decide⟩

/-- C2 (amended): `build(start, end)` produces `⌈(end - start) / 30⌉` slots in
*all* cases (stated in `Nat` ceiling-division form), and every slot's stage is
Wake before any overlay. -/
theorem C2_build_slot_count (start_time end_time : Int) :
    (create_30s_segments start_time end_time).length =
      ((end_time - start_time).toNat + 29) / 30 ∧
    (create_30s_segments start_time end_time).all
        (fun s => s.Stage == "WAKE") = true := by
  refine ⟨create_30s_segments_length _ _, ?_⟩
  rw [List.all_eq_true]
  intro s hs
  simpa using create_30s_segments_stage _ _ s hs

/-- C3: a single interval overwrites exactly the slots whose start lies in
`[interval.start, interval.end]` inclusive and whose current stage is Wake
(first conjunct), and a slot already carrying a non-Wake stage is never
changed by any further-processed interval, so the overlay never downgrades a
non-Wake slot (second conjunct). -/
theorem C3_overlay_first_writer_wins :
    (∀ (segments : List SleepSegment) (entry : SleepEntry) (i : Nat)
        (segment : SleepSegment),
        segments[i]? = some segment →
        (update_segments_with_sleep_data segments [entry])[i]? =
          some (if entry.StartDate ≤ segment.Start ∧
              segment.Start ≤ entry.EndDate ∧ segment.Stage = "WAKE" then
            { segment with Stage := map_sleep_stage entry.Value }
          else segment)) ∧
    (∀ (segments : List SleepSegment) (entries : List SleepEntry) (i : Nat)
        (segment : SleepSegment),
        segments[i]? = some segment → segment.Stage ≠ "WAKE" →
        (update_segments_with_sleep_data segments entries)[i]? = some segment) := by
  constructor
  · intro segments entry i segment h
    rw [update_cons, update_nil, overlayEntry_getElem?, h]
    rfl
  · intro segments entries i segment h hst
    exact update_preserves_nonwake entries segments i segment h hst

theorem C3_overlay_first_writer_wins_witness :
    (update_segments_with_sleep_data [⟨0, "WAKE"⟩] [⟨"w", 0, 0, "Deep", 30⟩])[0]? =
        some ⟨0, "Deep"⟩ ∧
    (update_segments_with_sleep_data [⟨0, "Light"⟩] [⟨"w", 0, 0, "Deep", 30⟩])[0]? =
        some ⟨0, "Light"⟩ := by
  constructor
  · have h := C3_overlay_first_writer_wins.1 [⟨0, "WAKE"⟩] ⟨"w", 0, 0, "Deep", 30⟩ 0
      ⟨0, "WAKE"⟩ rfl
    rw [h]
    decide
  · exact C3_overlay_first_writer_wins.2 [⟨0, "Light"⟩] [⟨"w", 0, 0, "Deep", 30⟩] 0
      ⟨0, "Light"⟩ rfl (by decide)

/-- C4: running the summarizer with shift `s + 3600` instead of `s` shifts
only the output start and stop times, by exactly one hour (so the total
duration, onset duration, awakening count and hypnogram — all remaining
fields — are identical), and every per-stage duration of the underlying
timeline is unchanged. -/
theorem C4_time_shift_one_hour (sleep_data : List SleepEntry) (s : Int) :
    process_health_data sleep_data (s + 3600) =
      Option.map (shiftOutput 3600) (process_health_data sleep_data s) ∧
    ∀ k : String,
      stage_durations (nightTimeline sleep_data (s + 3600)) k =
        stage_durations (nightTimeline sleep_data s) k := by
  have hmap : (sortEntries sleep_data).map (shiftEntry (s + 3600)) =
      ((sortEntries sleep_data).map (shiftEntry s)).map (shiftEntry 3600) := by
    rw [List.map_map]
    refine List.map_congr_left fun e _ => ?_
    cases e
    simp only [shiftEntry, apply_time_shift, Function.comp_apply, SleepEntry.mk.injEq]
    refine ⟨trivial, trivial, by ring, trivial, by ring⟩
  constructor
  · unfold process_health_data
    rw [hmap]
    cases hcase : (sortEntries sleep_data).map (shiftEntry s) with
    | nil => rfl
    | cons f r =>
      rw [List.map_cons]
      show summarizeCore (shiftEntry 3600 f) (r.map (shiftEntry 3600)) =
        Option.map (shiftOutput 3600) (summarizeCore f r)
      exact summarizeCore_shift 3600 f r
  · intro k
    unfold nightTimeline
    rw [hmap]
    cases hcase : (sortEntries sleep_data).map (shiftEntry s) with
    | nil => rfl
    | cons f r =>
      rw [List.map_cons]
      show stage_durations (nightTimelineOf (shiftEntry 3600 f) (r.map (shiftEntry 3600))) k =
        stage_durations (nightTimelineOf f r) k
      rw [nightTimelineOf_shift, stage_durations_shift]

/-- C5: the grouper's night-date rule — start clock time at or after 19:00
keeps the interval's own calendar date, otherwise the previous one; an
interval starting at 23:00 of day `d` belongs to night `d` and one starting
at 06:00 of day `d` belongs to night `d - 1`. -/
theorem C5_night_date_rule (t d : Int) :
    (t % 86400 ≥ 19 * 3600 → nightDateOf t = t / 86400) ∧
    (t % 86400 < 19 * 3600 → nightDateOf t = t / 86400 - 1) ∧
    nightDateOf (d * 86400 + 23 * 3600) = d ∧
    nightDateOf (d * 86400 + 6 * 3600) = d - 1 := by
  refine ⟨?_, ?_, ?_, ?_⟩
  · intro h
    rw [nightDateOf, if_pos h]
  · intro h
    rw [nightDateOf, if_neg (by omega)]
    omega
  · rw [nightDateOf, if_pos (by omega)]
    omega
  · rw [nightDateOf, if_neg (by omega)]
    omega

theorem C5_night_date_rule_witness :
    ((82800 : Int) % 86400 ≥ 19 * 3600 ∧ nightDateOf 82800 = 0) ∧
    ((21600 : Int) % 86400 < 19 * 3600 ∧ nightDateOf 21600 = -1) := by
  refine ⟨⟨by decide, ?_⟩, ⟨by decide, ?_⟩⟩
  · rw [(C5_night_date_rule 82800 0).1 (by decide)]
    decide
  · rw [(C5_night_date_rule 21600 0).2.1 (by decide)]
    decide

/-- C6 counterexample: an interval from 19:00 of day 0 to exactly 11:00 of
day 1 (timestamps 68400 and 126000) is placed in a night group by the code,
yet it does not lie within the *half-open* window
`[nightDate 19:00, nightDate+1 11:00)` claimed by the spec. -/
theorem C6_counterexample :
    (∃ g ∈ groupNights 0 200000 [⟨"w", 0, 68400, "Asleep", 126000⟩],
        (⟨"w", 0, 68400, "Asleep", 126000⟩ : SleepEntry) ∈ g.2) ∧
    ¬ entryPassesFilterSpec 0 200000 ⟨"w", 0, 68400, "Asleep", 126000⟩ := by
  constructor
  · exact ⟨(some 0, [⟨"w", 0, 68400, "Asleep", 126000⟩]), by decide, by decide⟩
  · decide

/-- C6 (amended): an interval appears in some night group if and only if it
lies entirely within its night's canonical window closed at *both* ends,
`[nightDate 19:00, nightDate+1 11:00]`, and entirely within
`[fromDate, toDate]`; all other intervals appear in no group. -/
theorem C6_membership_iff (from_date to_date : Int) (es : List SleepEntry)
    (e : SleepEntry) :
    (∃ g ∈ groupNights from_date to_date es, e ∈ g.2) ↔
      e ∈ es ∧ entryPassesFilter from_date to_date e := by
  have hiff : e ∈ (groupNights from_date to_date es).flatMap Prod.snd ↔
      ∃ g ∈ groupNights from_date to_date es, e ∈ g.2 := List.mem_flatMap
  rw [← hiff, groupNights_flatMap, List.mem_filter]
  simp

/-- C7: every group emitted by the night grouper holds at least one interval;
nights whose entries are all filtered out yield no group. -/
theorem C7_no_empty_groups (from_date to_date : Int) (es : List SleepEntry)
    (g : Option Int × List SleepEntry)
    (hg : g ∈ groupNights from_date to_date es) : g.2 ≠ [] := by
  unfold groupNights at hg
  have hinit : ∀ q ∈ (⟨[], none, []⟩ : GroupState).grouped, q.2 ≠ [] := by
    intro q hq
    simp at hq
  by_cases he : (es.foldl (groupStep from_date to_date)
      ⟨[], none, []⟩).current_night_entries.isEmpty
  · rw [if_pos he] at hg
    exact foldl_groups_nonempty from_date to_date es _ hinit g hg
  · rw [if_neg he] at hg
    rcases List.mem_append.mp hg with h2 | h2
    · exact foldl_groups_nonempty from_date to_date es _ hinit g h2
    · have hgp : g = ((es.foldl (groupStep from_date to_date)
          ⟨[], none, []⟩).current_night_start,
          (es.foldl (groupStep from_date to_date) ⟨[], none, []⟩).current_night_entries) := by
        simpa using h2
      rw [hgp]
      exact fun hc => he (List.isEmpty_iff.mpr hc)

theorem C7_no_empty_groups_witness :
    ((some 0, [⟨"w", 0, 68400, "Asleep", 90000⟩]) : Option Int × List SleepEntry) ∈
        groupNights 0 200000 [⟨"w", 0, 68400, "Asleep", 90000⟩] ∧
    ((some 0, [(⟨"w", 0, 68400, "Asleep", 90000⟩ : SleepEntry)]) :
        Option Int × List SleepEntry).2 ≠ [] :=
  ⟨by decide, C7_no_empty_groups 0 200000 [⟨"w", 0, 68400, "Asleep", 90000⟩] _ (by decide)⟩

/-- C8: the awakening count equals the number of adjacent non-Wake→Wake slot
pairs (first conjunct, with the all-Wake timeline having zero awakenings), and
that is exactly the `NumberOfAwakenings` the summarizer reports (second
conjunct). -/
theorem C8_awakening_count :
    (∀ segments : List SleepSegment,
        num_awakenings segments = awakeningTransitions segments ∧
        ((∀ s ∈ segments, s.Stage = "WAKE") → num_awakenings segments = 0)) ∧
    (∀ (first : SleepEntry) (rest : List SleepEntry) (out : OutputData),
        summarizeCore first rest = some out →
        out.NumberOfAwakenings = awakeningTransitions (nightTimelineOf first rest)) := by
  constructor
  · intro segments
    refine ⟨num_awakenings_eq_transitions segments, ?_⟩
    intro h
    unfold num_awakenings
    rw [List.countP_eq_zero]
    intro p hp
    obtain ⟨a, b⟩ := p
    have hmem := List.of_mem_zip hp
    have ha : a.Stage = "WAKE" := h a hmem.1
    simp [ha]
  · intro first rest out hout
    cases hseg : nightTimelineOf first rest with
    | nil =>
      simp only [summarizeCore, hseg] at hout
      exact absurd hout (by simp)
    | cons s0 ss =>
      simp only [summarizeCore, hseg] at hout
      obtain rfl := Option.some.inj hout
      exact num_awakenings_eq_transitions (s0 :: ss)

theorem C8_awakening_count_witness :
    ((∀ s ∈ ([⟨0, "WAKE"⟩] : List SleepSegment), s.Stage = "WAKE") ∧
      num_awakenings [⟨0, "WAKE"⟩] = 0) ∧
    (summarizeCore ⟨"w", 0, 0, "Asleep", 60⟩ [] =
        some ⟨"night", 0, 60, "0:01:00", "0:00:00", "0:00:00", "0:00:00", "0:00:00",
          "0:00:00", 0, 0, 0, 0, 0, 0, "[Asleep,Asleep]"⟩ ∧
      (⟨"night", 0, 60, "0:01:00", "0:00:00", "0:00:00", "0:00:00", "0:00:00",
          "0:00:00", 0, 0, 0, 0, 0, 0, "[Asleep,Asleep]"⟩ :
            OutputData).NumberOfAwakenings =
        awakeningTransitions (nightTimelineOf ⟨"w", 0, 0, "Asleep", 60⟩ [])) := by
  refine ⟨⟨by decide, ?_⟩, ⟨summarize_example_eval, ?_⟩⟩
  · exact (C8_awakening_count.1 [⟨0, "WAKE"⟩]).2 (by decide)
  · exact C8_awakening_count.2 _ [] _ summarize_example_eval

/-- C9: the reported wake-after-sleep-onset duration is exactly the total
"WAKE" duration minus the sleep-onset duration, with no clamping, and when
the onset duration exceeds the total Wake duration that value is negative. -/
theorem C9_waso_unclamped (first : SleepEntry) (rest : List SleepEntry)
    (s0 : SleepSegment) (ss : List SleepSegment) (out : OutputData)
    (hseg : nightTimelineOf first rest = s0 :: ss)
    (hout : summarizeCore first rest = some out) :
    out.WakeAfterSleepOnsetDuration =
      renderHMS (format_timedelta
        (stage_durations (s0 :: ss) "WAKE" -
          ((((s0 :: ss).find? fun s => !(s.Stage == "WAKE")).getD s0).Start -
            first.StartDate))) ∧
    (stage_durations (s0 :: ss) "WAKE" <
        (((s0 :: ss).find? fun s => !(s.Stage == "WAKE")).getD s0).Start -
          first.StartDate →
      stage_durations (s0 :: ss) "WAKE" -
          ((((s0 :: ss).find? fun s => !(s.Stage == "WAKE")).getD s0).Start -
            first.StartDate) < 0) := by
  constructor
  · simp only [summarizeCore, hseg] at hout
    obtain rfl := Option.some.inj hout
    show renderHMS (format_timedelta
        (stage_durations (s0 :: ss) "WAKE" -
          parse_duration_string (calculate_duration first.StartDate
            (((s0 :: ss).find? fun s => !(s.Stage == "WAKE")).getD s0).Start))) = _
    rw [show ∀ a b : Int, parse_duration_string (calculate_duration a b) = b - a from
      fun a b => parse_format_roundtrip (b - a)]
  · intro h
    omega

theorem C9_waso_unclamped_witness :
    nightTimelineOf ⟨"w", 0, 0, "Asleep", 60⟩ [] = [⟨0, "Asleep"⟩, ⟨30, "Asleep"⟩] ∧
    (⟨"night", 0, 60, "0:01:00", "0:00:00", "0:00:00", "0:00:00", "0:00:00",
        "0:00:00", 0, 0, 0, 0, 0, 0, "[Asleep,Asleep]"⟩ :
          OutputData).WakeAfterSleepOnsetDuration =
      renderHMS (format_timedelta
        (stage_durations [⟨0, "Asleep"⟩, ⟨30, "Asleep"⟩] "WAKE" -
          (((([⟨0, "Asleep"⟩, ⟨30, "Asleep"⟩] : List SleepSegment).find?
                fun s => !(s.Stage == "WAKE")).getD (⟨0, "Asleep"⟩ : SleepSegment)).Start -
            (⟨"w", 0, 0, "Asleep", 60⟩ : SleepEntry).StartDate))) :=
  ⟨timeline_example_eval,
    (C9_waso_unclamped ⟨"w", 0, 0, "Asleep", 60⟩ [] ⟨0, "Asleep"⟩ [⟨30, "Asleep"⟩] _
      timeline_example_eval summarize_example_eval).1⟩

theorem update_empty_segments (es : List SleepEntry) :
    update_segments_with_sleep_data [] es = [] := by
  induction es with
  | nil => rfl
  | cons e t ih =>
    rw [update_cons]
    exact ih

/-- An entry list whose maximal end date equals the earliest start date yields
an empty timeline, and the summarizer then produces no summary (Python: the
eagerly evaluated `segments[0]` fallback of line 120 raises `IndexError`). -/
theorem summarizeCore_zero_span (first : SleepEntry) (rest : List SleepEntry)
    (h : maxEndDate first rest = first.StartDate) :
    summarizeCore first rest = none := by
  have hseg : nightTimelineOf first rest = [] := by
    unfold nightTimelineOf
    rw [h]
    have hc : create_30s_segments first.StartDate first.StartDate = [] := by
      rw [create_30s_segments_closedForm]
      have hz : ((first.StartDate - first.StartDate).toNat + 29) / 30 = 0 := by
        omega
      rw [hz]
      rfl
    rw [hc, update_empty_segments]
  simp [summarizeCore, hseg]

/-- C10: on a non-empty entry list whose latest end equals its earliest start
(e.g. a single zero-length interval) the summarizer builds an empty slot list
and produces no summary — the `none` models the uncaught `IndexError` raised
by the eager `segments[0]` fallback — so it is not total on non-empty
input. -/
theorem C10_zero_span_not_total :
    (∀ (first : SleepEntry) (rest : List SleepEntry),
        maxEndDate first rest = first.StartDate → summarizeCore first rest = none) ∧
    (∀ (e : SleepEntry) (s : Int), e.StartDate = e.EndDate →
        process_health_data [e] s = none) := by
  constructor
  · exact summarizeCore_zero_span
  · intro e s h
    have hsort : sortEntries [e] = [e] := by
      unfold sortEntries
      simp
    unfold process_health_data
    rw [hsort, List.map_cons, List.map_nil]
    show summarizeCore (shiftEntry s e) [] = none
    apply summarizeCore_zero_span
    show maxEndDate (shiftEntry s e) [] = (shiftEntry s e).StartDate
    have h1 : maxEndDate (shiftEntry s e) [] = e.EndDate + s := rfl
    have h2 : (shiftEntry s e).StartDate = e.StartDate + s := rfl
    rw [h1, h2, h]

theorem C10_zero_span_not_total_witness :
    maxEndDate ⟨"w", 0, 0, "Asleep", 0⟩ [] =
        (⟨"w", 0, 0, "Asleep", 0⟩ : SleepEntry).StartDate ∧
    summarizeCore ⟨"w", 0, 0, "Asleep", 0⟩ [] = none ∧
    (⟨"w", 0, 0, "Asleep", 0⟩ : SleepEntry).StartDate =
        (⟨"w", 0, 0, "Asleep", 0⟩ : SleepEntry).EndDate ∧
    process_health_data [⟨"w", 0, 0, "Asleep", 0⟩] 0 = none :=
  ⟨rfl, C10_zero_span_not_total.1 _ _ rfl, rfl, C10_zero_span_not_total.2 _ 0 rfl⟩

end Apple2Dreem
